import Mathlib

/-!
Verification of the FIT-decoding core of the gormin repository.

The embedded functions are shallow translations of `src/main.go`:
- `parseHeader`       embeds `FitParser.parseHeader` (lines 271-301),
- `parseRecordsLoop`  embeds the record loop of `FitParser.ParseRecords`
  (lines 320-349); the surrounding read of the data section is
  `ParseRecords` below (lines 304-352),
- `ParseToActivity`   embeds `FitParser.ParseToActivity` (lines 355-412),
- `ProcessFitFiles`   embeds the walk callback of
  `FitProcessor.ProcessFitFiles` (lines 430-447).

Bytes are modelled as `Nat` (values below 256 in any real file), Go `uint32`
values as `Nat`, Go `int` accumulators as `Nat` (in this program they start at
0 and only ever increase, and the quantities involved cannot reach 2^63), and
Go `float64` distance arithmetic as exact rationals `ℚ`.

Go's `os.File.Read(buf)` on a regular file copies `min (buf.size) avail`
bytes into the zero-initialised buffer and returns a non-nil error (`io.EOF`)
exactly when no byte is available and the buffer is non-empty; the source
ignores the returned byte count, which the read models below reproduce.
-/

/-- One decoded FIT data record (source `FitRecord`): the header byte and the
field mapping, in which only tag 0 is ever populated (in the normal-header
branch, with the 32-bit little-endian value read from the four bytes after
the header byte).  The capture timestamp is wall-clock time, carries no
file-derived information, and is not modelled. -/
structure FitRecord where
  header : Nat
  fields0 : Option Nat
deriving DecidableEq

/-- Little-endian 32-bit value from the four bytes of `data` starting at
index `i` (source `binary.LittleEndian.Uint32`); out-of-range indices read
as 0, matching the zero-initialised Go buffers being indexed. -/
def le32 (data : List Nat) (i : Nat) : Nat :=
  data.getD i 0 + 256 * data.getD (i + 1) 0 + 65536 * data.getD (i + 2) 0 +
    16777216 * data.getD (i + 3) 0

/-- The record-decoding loop of `ParseRecords` (source lines 320-349), as a
function of the cursor `off`, with an explicit fuel argument that makes the
translation structurally recursive.  Every iteration either breaks or
advances `off` by 5 (normal header) or 1 (compressed-timestamp header), so
fuel `data.length + 1` is never exhausted (`parseLoopF_congr` below makes
the fuel irrelevance precise). -/
def parseLoopF : Nat → List Nat → Nat → List FitRecord
  | 0, _, _ => []
  | fuel + 1, data, off =>
    if off < data.length then
      if off + 1 ≥ data.length then []
      else
        if data.getD off 0 &&& 128 = 0 then
          if off + 4 < data.length then
            if off + 5 + 4 ≥ data.length then
              [⟨data.getD off 0, some (le32 data (off + 1))⟩]
            else
              ⟨data.getD off 0, some (le32 data (off + 1))⟩ ::
                parseLoopF fuel data (off + 5)
          else []
        else
          if off + 1 + 4 ≥ data.length then [⟨data.getD off 0, none⟩]
          else ⟨data.getD off 0, none⟩ :: parseLoopF fuel data (off + 1)
    else []

/-- The record loop started at cursor `off` with sufficient fuel. -/
def parseFrom (data : List Nat) (off : Nat) : List FitRecord :=
  parseLoopF (data.length + 1) data off

/-- The record loop over a whole data section (cursor starts at 0). -/
def parseRecordsLoop (data : List Nat) : List FitRecord :=
  parseFrom data 0

/-- The decoded FIT file header (source `FitHeader`; the trailing CRC field
is never read by `parseHeader` and is omitted). -/
structure FitHeader where
  HeaderSize : Nat
  ProtocolVersion : Nat
  ProfileVersion : Nat
  DataSize : Nat
  DataType : List Nat
deriving DecidableEq

/-- Result of `parseHeader`: success, the error returned by `file.Read`
(io.EOF, raised only when the file holds no byte at all), or the
invalid-magic error (source line 297). -/
inductive HeaderResult where
  | ok (hdr : FitHeader)
  | readErr
  | invalidMagic (dataType : List Nat)
deriving DecidableEq

/-- Embedding of `FitParser.parseHeader` (source lines 271-301) on a file
whose bytes are `fileBytes`.  The source calls `file.Read` once on a zero-initialised
12-byte buffer and ignores the byte count, so a file shorter than 12 bytes
leaves the tail of the buffer zero; `binary.Read` on the in-memory 12-byte
buffer cannot fail.  Bytes 8-11 must equal ".FIT" = [46, 70, 73, 84]. -/
def parseHeader (fileBytes : List Nat) : HeaderResult :=
  if fileBytes.length = 0 then HeaderResult.readErr
  else
    let hb := fileBytes.take 12 ++ List.replicate (12 - fileBytes.length) 0
    if [hb.getD 8 0, hb.getD 9 0, hb.getD 10 0, hb.getD 11 0] = [46, 70, 73, 84] then
      HeaderResult.ok
        ⟨hb.getD 0 0, hb.getD 1 0, hb.getD 2 0 + 256 * hb.getD 3 0, le32 hb 4,
          [hb.getD 8 0, hb.getD 9 0, hb.getD 10 0, hb.getD 11 0]⟩
    else HeaderResult.invalidMagic [hb.getD 8 0, hb.getD 9 0, hb.getD 10 0, hb.getD 11 0]

/-- Result of `ParseRecords`: the record list, or the error returned by the
data-section `file.Read` (io.EOF, raised only when no byte is available
behind the header). -/
inductive RecordsResult where
  | ok (records : List FitRecord)
  | readErr
deriving DecidableEq

/-- Embedding of `FitParser.ParseRecords` (source lines 304-352): seek to
`hdr.HeaderSize`, read `hdr.DataSize` bytes into a zero-initialised buffer
with the byte count of `file.Read` ignored (a short read zero-pads the
buffer; only a read at end-of-file with a non-empty buffer errors), then run
the record loop on the buffer. -/
def ParseRecords (fileBytes : List Nat) (hdr : FitHeader) : RecordsResult :=
  if (fileBytes.drop hdr.HeaderSize).length = 0 ∧ 0 < hdr.DataSize then
    RecordsResult.readErr
  else
    RecordsResult.ok (parseRecordsLoop
      ((fileBytes.drop hdr.HeaderSize).take hdr.DataSize ++
        List.replicate (hdr.DataSize - (fileBytes.drop hdr.HeaderSize).length) 0))

/-- The activity summary (source `Activity`).  `Type'` stands for the Go
field `Type` (a Lean keyword).  The Go `int` fields only ever hold
nonnegative values in this program and are modelled as `Nat`; the `float64`
field `Distance` is modelled as an exact rational. -/
structure Activity where
  ID : Nat
  Name : String
  Type' : String
  StartTime : String
  Duration : Nat
  Distance : ℚ
  Calories : Nat
  AvgHR : Nat
  MaxHR : Nat
  ElevationGain : Nat
deriving DecidableEq

/-- The mutable accumulator of `ParseToActivity`'s loop (source lines
371-374): `avgHR` is the running heart-rate sum, divided by `hrCount` only
after the loop. -/
structure AggState where
  totalDistance : ℚ
  totalCalories : Nat
  duration : Nat
  maxHR : Nat
  avgHR : Nat
  hrCount : Nat
deriving DecidableEq

/-- All-zero initial accumulator (Go zero values). -/
def initAgg : AggState := ⟨0, 0, 0, 0, 0, 0⟩

/-- One iteration of `ParseToActivity`'s loop body (source lines 376-401):
the record contributes only if its field map holds tag 0; the switch on
`fieldType = v % 10` updates one accumulator for 0-3 and nothing for 4-9. -/
def aggStep (s : AggState) (r : FitRecord) : AggState :=
  match r.fields0 with
  | none => s
  | some v =>
    if v % 10 = 0 then
      { s with totalDistance := s.totalDistance + ((v % 10000 : Nat) : ℚ) / 1000 }
    else if v % 10 = 1 then
      { s with totalCalories := s.totalCalories + v % 1000 }
    else if v % 10 = 2 then
      { s with duration := s.duration + v % 3600 }
    else if v % 10 = 3 then
      { s with
        maxHR := if v % 200 + 60 > s.maxHR then v % 200 + 60 else s.maxHR,
        avgHR := s.avgHR + (v % 200 + 60),
        hrCount := s.hrCount + 1 }
    else s

/-- Embedding of `FitParser.ParseToActivity` (source lines 355-412) applied to an
already-decoded record list; `now` is the wall-clock start-time string the
source formats at aggregation time.  `AvgHR` is written only when
`hrCount > 0` (integer division, which truncates toward zero on these
nonnegative values); `ID` and `ElevationGain` keep their zero values. -/
def ParseToActivity (records : List FitRecord) (now : String) : Activity :=
  let s := records.foldl aggStep initAgg
  ⟨0, "FIT Activity", "unknown", now, s.duration, s.totalDistance, s.totalCalories,
    if 0 < s.hrCount then s.avgHR / s.hrCount else 0, s.maxHR, 0⟩

/-- The tag-0 values of a record sequence, in order (spec: "every record
whose field mapping contains tag 0 with a 32-bit value v"). -/
def tag0Values (records : List FitRecord) : List Nat :=
  records.filterMap FitRecord.fields0

/-- Spec rule for distance: each tag-0 value with `v % 10 = 0` contributes
`(v % 10000) / 1000` kilometres. -/
def specDistance (records : List FitRecord) : ℚ :=
  (((tag0Values records).filter fun v => v % 10 = 0).map
    fun v => ((v % 10000 : Nat) : ℚ) / 1000).sum

/-- Spec rule for calories: each tag-0 value with `v % 10 = 1` contributes
`v % 1000`. -/
def specCalories (records : List FitRecord) : Nat :=
  (((tag0Values records).filter fun v => v % 10 = 1).map fun v => v % 1000).sum

/-- Spec rule for duration: each tag-0 value with `v % 10 = 2` contributes
`v % 3600` seconds. -/
def specDuration (records : List FitRecord) : Nat :=
  (((tag0Values records).filter fun v => v % 10 = 2).map fun v => v % 3600).sum

/-- Spec rule for heart-rate samples: each tag-0 value with `v % 10 = 3`
yields the sample `(v % 200) + 60`. -/
def specHRList (records : List FitRecord) : List Nat :=
  ((tag0Values records).filter fun v => v % 10 = 3).map fun v => v % 200 + 60

/-- Spec rule for maximum heart rate: running maximum of the samples,
starting from 0 (`max` is associative and commutative, so the fold
direction is immaterial). -/
def specMaxHR (records : List FitRecord) : Nat :=
  (specHRList records).foldr max 0

/-- Spec rule for the heart-rate running sum. -/
def specHRSum (records : List FitRecord) : Nat :=
  (specHRList records).sum

/-- Spec rule for the heart-rate sample count. -/
def specHRCount (records : List FitRecord) : Nat :=
  (specHRList records).length

/-- Go `strings.ToLower` on one byte of an ASCII extension string. -/
def toLowerByte (b : Nat) : Nat :=
  if 65 ≤ b ∧ b ≤ 90 then b + 32 else b

/-- Go `strings.ToLower` on an ASCII extension string (extensions are byte
strings; on the ASCII range Unicode lower-casing is this byte map). -/
def lowerExt (ext : List Nat) : List Nat :=
  ext.map toLowerByte

/-- The bytes of ".fit". -/
def fitExt : List Nat := [46, 102, 105, 116]

/-- One entry of the visit sequence that `filepath.Walk` presents to the
callback of `ProcessFitFiles`, in visiting order (the root path is the first
entry): either the walk reports an enumeration error for the path (a failed
stat or directory read, passed to the callback as a non-nil `err`), or the
path is a directory, or a regular file whose `filepath.Ext` is the given
byte string and whose processing pipeline succeeds or fails (`procFails`). -/
inductive WalkEvent where
  | enumError
  | dir
  | file (ext : List Nat) (procFails : Bool)
deriving DecidableEq

/-- Whether an entry is a selected file whose per-file pipeline fails (these
are the failures the callback prints and swallows). -/
def failingFit : WalkEvent → Bool
  | WalkEvent.file ext procFails => decide (lowerExt ext = fitExt) && procFails
  | _ => false

/-- Outcome of the walk: completed (with the number of per-file failures
reported along the way), or aborted because the callback returned a non-nil
error to `filepath.Walk`. -/
inductive WalkResult where
  | ok (reportedFailures : Nat)
  | aborted
deriving DecidableEq

/-- The callback of `FitProcessor.ProcessFitFiles` (source lines 430-447)
run over a walk's visit sequence.  A walk-supplied error is returned as is
(`if err != nil { return err }`), aborting the walk; a selected `.fit` file
(extension compared lower-cased) whose pipeline fails is reported and the
callback returns nil; everything else returns nil and the walk continues. -/
def ProcessFitFiles : List WalkEvent → WalkResult
  | [] => WalkResult.ok 0
  | WalkEvent.enumError :: _ => WalkResult.aborted
  | WalkEvent.dir :: rest => ProcessFitFiles rest
  | WalkEvent.file ext procFails :: rest =>
    if lowerExt ext = fitExt then
      match ProcessFitFiles rest with
      | WalkResult.aborted => WalkResult.aborted
      | WalkResult.ok n => WalkResult.ok (if procFails then n + 1 else n)
    else ProcessFitFiles rest

/-- One unfolding step of the fueled record loop. -/
lemma parseLoopF_succ (fuel : Nat) (data : List Nat) (off : Nat) :
    parseLoopF (fuel + 1) data off =
      if off < data.length then
        if off + 1 ≥ data.length then []
        else
          if data.getD off 0 &&& 128 = 0 then
            if off + 4 < data.length then
              if off + 5 + 4 ≥ data.length then
                [⟨data.getD off 0, some (le32 data (off + 1))⟩]
              else
                ⟨data.getD off 0, some (le32 data (off + 1))⟩ ::
                  parseLoopF fuel data (off + 5)
            else []
          else
            if off + 1 + 4 ≥ data.length then [⟨data.getD off 0, none⟩]
            else ⟨data.getD off 0, none⟩ :: parseLoopF fuel data (off + 1)
      else [] := rfl

/-- The fuel is irrelevant as soon as it covers the remaining bytes: every
iteration advances the cursor by at least 1. -/
lemma parseLoopF_congr (f : Nat) : ∀ (g : Nat) (data : List Nat) (off : Nat),
    data.length ≤ off + f → data.length ≤ off + g →
    parseLoopF f data off = parseLoopF g data off := by
  induction f with
  | zero =>
    intro g data off hf hg
    cases g with
    | zero => rfl
    | succ g =>
      have h : ¬ off < data.length := by omega
      rw [parseLoopF_succ]
      simp [parseLoopF, h]
  | succ f ih =>
    intro g data off hf hg
    cases g with
    | zero =>
      have h : ¬ off < data.length := by omega
      rw [parseLoopF_succ]
      simp [parseLoopF, h]
    | succ g =>
      rw [parseLoopF_succ, parseLoopF_succ]
      split_ifs <;>
        first
          | rfl
          | exact congrArg (List.cons _) (ih _ data _ (by omega) (by omega))

/-- Unfolding of `parseFrom` as the source loop body, with the guards
`off < len` and `off + 1 ≥ len` merged into `off + 1 < len` and the two
post-append stop tests written as `len ≤ off + 9` and `len ≤ off + 5`. -/
lemma parseFrom_eq (data : List Nat) (off : Nat) :
    parseFrom data off =
      if off + 1 < data.length then
        if data.getD off 0 &&& 128 = 0 then
          if off + 4 < data.length then
            if data.length ≤ off + 9 then
              [⟨data.getD off 0, some (le32 data (off + 1))⟩]
            else
              ⟨data.getD off 0, some (le32 data (off + 1))⟩ :: parseFrom data (off + 5)
          else []
        else
          if data.length ≤ off + 5 then [⟨data.getD off 0, none⟩]
          else ⟨data.getD off 0, none⟩ :: parseFrom data (off + 1)
      else [] := by
  unfold parseFrom
  rw [parseLoopF_succ]
  by_cases h1 : off + 1 < data.length
  · have hlt : off < data.length := by omega
    have hge : ¬ off + 1 ≥ data.length := by omega
    simp only [if_pos hlt, if_neg hge, if_pos h1]
    by_cases h3 : data.getD off 0 &&& 128 = 0
    · simp only [if_pos h3]
      by_cases h4 : off + 4 < data.length
      · simp only [if_pos h4]
        by_cases h5 : off + 5 + 4 ≥ data.length
        · have h5' : data.length ≤ off + 9 := by omega
          simp only [if_pos h5, if_pos h5']
        · have h5' : ¬ data.length ≤ off + 9 := by omega
          simp only [if_neg h5, if_neg h5']
          exact congrArg (List.cons _)
            (parseLoopF_congr data.length (data.length + 1) data (off + 5)
              (by omega) (by omega))
      · simp only [if_neg h4]
    · simp only [if_neg h3]
      by_cases h6 : off + 1 + 4 ≥ data.length
      · have h6' : data.length ≤ off + 5 := by omega
        simp only [if_pos h6, if_pos h6']
      · have h6' : ¬ data.length ≤ off + 5 := by omega
        simp only [if_neg h6, if_neg h6']
        exact congrArg (List.cons _)
          (parseLoopF_congr data.length (data.length + 1) data (off + 1)
            (by omega) (by omega))
  · by_cases hlt : off < data.length
    · have hge : off + 1 ≥ data.length := by omega
      simp only [if_pos hlt, if_pos hge, if_neg h1]
    · simp only [if_neg hlt, if_neg h1]

/-- Whenever at least 5 bytes lie at positions `off, …`, the loop started at
`off` emits at least one record (both header variants do). -/
lemma parseFrom_ne_nil (data : List Nat) (off : Nat) (h : off + 4 < data.length) :
    parseFrom data off ≠ [] := by
  rw [parseFrom_eq]
  split_ifs with h1 h2 h3 h4 <;>
    first
      | exact absurd h (by omega)
      | simp

/-- Each emitted record consumes at least one byte of the remaining data. -/
lemma parseLoopF_length (f : Nat) : ∀ (data : List Nat) (off : Nat),
    (parseLoopF f data off).length ≤ data.length - off := by
  induction f with
  | zero => intro data off; simp [parseLoopF]
  | succ f ih =>
    intro data off
    rw [parseLoopF_succ]
    split_ifs with h1 h2 h3 h4 h5 h6
    · simp
    · simp; omega
    · have := ih data (off + 5); simp only [List.length_cons]; omega
    · simp
    · simp; omega
    · have := ih data (off + 1); simp only [List.length_cons]; omega
    · simp

/-- The source's maximum update `if hr > maxHR then hr else maxHR`. -/
lemma ite_lt_max (a b : Nat) : (if a < b then b else a) = max a b := by
  rcases Nat.lt_or_ge a b with h | h
  · simp [h, Nat.max_eq_right (Nat.le_of_lt h)]
  · simp [Nat.not_lt.2 h, Nat.max_eq_left h]

/-- The loop's running distance is the spec's distance sum. -/
lemma agg_totalDistance (records : List FitRecord) : ∀ s : AggState,
    (records.foldl aggStep s).totalDistance = s.totalDistance + specDistance records := by
  induction records with
  | nil => intro s; simp [specDistance, tag0Values]
  | cons r rs ih =>
    intro s
    rw [List.foldl_cons, ih]
    rcases hf : r.fields0 with _ | v
    · simp [aggStep, hf, specDistance, tag0Values, List.filterMap_cons]
    · simp only [aggStep, hf, specDistance, tag0Values, List.filterMap_cons]
      by_cases h0 : v % 10 = 0
      · simp [h0, List.filter_cons, add_assoc]
      · by_cases h1 : v % 10 = 1
        · simp [h0, h1, List.filter_cons]
        · by_cases h2 : v % 10 = 2
          · simp [h0, h1, h2, List.filter_cons]
          · by_cases h3 : v % 10 = 3
            · simp [h0, h1, h2, h3, List.filter_cons]
            · simp [h0, h1, h2, h3, List.filter_cons]

/-- The loop's running calories is the spec's calorie sum. -/
lemma agg_totalCalories (records : List FitRecord) : ∀ s : AggState,
    (records.foldl aggStep s).totalCalories = s.totalCalories + specCalories records := by
  induction records with
  | nil => intro s; simp [specCalories, tag0Values]
  | cons r rs ih =>
    intro s
    rw [List.foldl_cons, ih]
    rcases hf : r.fields0 with _ | v
    · simp [aggStep, hf, specCalories, tag0Values, List.filterMap_cons]
    · simp only [aggStep, hf, specCalories, tag0Values, List.filterMap_cons]
      by_cases h0 : v % 10 = 0
      · simp [h0, List.filter_cons]
      · by_cases h1 : v % 10 = 1
        · simp [h0, h1, List.filter_cons]; omega
        · by_cases h2 : v % 10 = 2
          · simp [h0, h1, h2, List.filter_cons]
          · by_cases h3 : v % 10 = 3
            · simp [h0, h1, h2, h3, List.filter_cons]
            · simp [h0, h1, h2, h3, List.filter_cons]

/-- The loop's running duration is the spec's duration sum. -/
lemma agg_duration (records : List FitRecord) : ∀ s : AggState,
    (records.foldl aggStep s).duration = s.duration + specDuration records := by
  induction records with
  | nil => intro s; simp [specDuration, tag0Values]
  | cons r rs ih =>
    intro s
    rw [List.foldl_cons, ih]
    rcases hf : r.fields0 with _ | v
    · simp [aggStep, hf, specDuration, tag0Values, List.filterMap_cons]
    · simp only [aggStep, hf, specDuration, tag0Values, List.filterMap_cons]
      by_cases h0 : v % 10 = 0
      · simp [h0, List.filter_cons]
      · by_cases h1 : v % 10 = 1
        · simp [h0, h1, List.filter_cons]
        · by_cases h2 : v % 10 = 2
          · simp [h0, h1, h2, List.filter_cons]; omega
          · by_cases h3 : v % 10 = 3
            · simp [h0, h1, h2, h3, List.filter_cons]
            · simp [h0, h1, h2, h3, List.filter_cons]

/-- The loop's running maximum is the spec's running maximum (joined with
the state's current maximum). -/
lemma agg_maxHR (records : List FitRecord) : ∀ s : AggState,
    (records.foldl aggStep s).maxHR = max s.maxHR (specMaxHR records) := by
  induction records with
  | nil => intro s; simp [specMaxHR, specHRList, tag0Values]
  | cons r rs ih =>
    intro s
    rw [List.foldl_cons, ih]
    rcases hf : r.fields0 with _ | v
    · simp [aggStep, hf, specMaxHR, specHRList, tag0Values, List.filterMap_cons]
    · simp only [aggStep, hf, specMaxHR, specHRList, tag0Values, List.filterMap_cons]
      by_cases h0 : v % 10 = 0
      · simp [h0, List.filter_cons]
      · by_cases h1 : v % 10 = 1
        · simp [h0, h1, List.filter_cons]
        · by_cases h2 : v % 10 = 2
          · simp [h0, h1, h2, List.filter_cons]
          · by_cases h3 : v % 10 = 3
            · simp [h0, h1, h2, h3, List.filter_cons, ite_lt_max, Nat.max_assoc]
            · simp [h0, h1, h2, h3, List.filter_cons]

/-- The loop's running heart-rate sum is the spec's sample sum. -/
lemma agg_avgHR (records : List FitRecord) : ∀ s : AggState,
    (records.foldl aggStep s).avgHR = s.avgHR + specHRSum records := by
  induction records with
  | nil => intro s; simp [specHRSum, specHRList, tag0Values]
  | cons r rs ih =>
    intro s
    rw [List.foldl_cons, ih]
    rcases hf : r.fields0 with _ | v
    · simp [aggStep, hf, specHRSum, specHRList, tag0Values, List.filterMap_cons]
    · simp only [aggStep, hf, specHRSum, specHRList, tag0Values, List.filterMap_cons]
      by_cases h0 : v % 10 = 0
      · simp [h0, List.filter_cons]
      · by_cases h1 : v % 10 = 1
        · simp [h0, h1, List.filter_cons]
        · by_cases h2 : v % 10 = 2
          · simp [h0, h1, h2, List.filter_cons]
          · by_cases h3 : v % 10 = 3
            · simp [h0, h1, h2, h3, List.filter_cons]; omega
            · simp [h0, h1, h2, h3, List.filter_cons]

/-- The loop's running heart-rate count is the spec's sample count. -/
lemma agg_hrCount (records : List FitRecord) : ∀ s : AggState,
    (records.foldl aggStep s).hrCount = s.hrCount + specHRCount records := by
  induction records with
  | nil => intro s; simp [specHRCount, specHRList, tag0Values]
  | cons r rs ih =>
    intro s
    rw [List.foldl_cons, ih]
    rcases hf : r.fields0 with _ | v
    · simp [aggStep, hf, specHRCount, specHRList, tag0Values, List.filterMap_cons]
    · simp only [aggStep, hf, specHRCount, specHRList, tag0Values, List.filterMap_cons]
      by_cases h0 : v % 10 = 0
      · simp [h0, List.filter_cons]
      · by_cases h1 : v % 10 = 1
        · simp [h0, h1, List.filter_cons]
        · by_cases h2 : v % 10 = 2
          · simp [h0, h1, h2, List.filter_cons]
          · by_cases h3 : v % 10 = 3
            · simp [h0, h1, h2, h3, List.filter_cons]; omega
            · simp [h0, h1, h2, h3, List.filter_cons]

/-- Evaluation of `parseHeader` on an arbitrary 12-byte buffer: the
12-byte read is exact, nothing is zero-padded, and only the magic test
remains. -/
lemma parseHeader_12 (b0 b1 b2 b3 b4 b5 b6 b7 b8 b9 b10 b11 : Nat) :
    parseHeader [b0, b1, b2, b3, b4, b5, b6, b7, b8, b9, b10, b11] =
      if [b8, b9, b10, b11] = [46, 70, 73, 84] then
        HeaderResult.ok ⟨b0, b1, b2 + 256 * b3,
          b4 + 256 * b5 + 65536 * b6 + 16777216 * b7, [b8, b9, b10, b11]⟩
      else HeaderResult.invalidMagic [b8, b9, b10, b11] := rfl

/-- Claim C1: `ParseToActivity`'s fold computes the summary exactly by the
spec's rules: for each tag-0 value `v`, `fieldType = v % 10` selects the
metric — 0 adds `(v % 10000) / 1000` to the distance, 1 adds `v % 1000` to
the calories, 2 adds `v % 3600` to the duration, 3 derives
`hr = v % 200 + 60` and updates the running maximum, sum and count, and
4-9 change nothing; at the end the average heart rate is the running sum
divided by the count (truncating division on these nonnegative values), or
0 when the count is 0. -/
theorem parseToActivity_aggregates_spec (records : List FitRecord) (now : String) :
    (ParseToActivity records now).Distance = specDistance records ∧
    (ParseToActivity records now).Calories = specCalories records ∧
    (ParseToActivity records now).Duration = specDuration records ∧
    (ParseToActivity records now).MaxHR = specMaxHR records ∧
    (ParseToActivity records now).AvgHR =
      (if specHRCount records = 0 then 0
       else specHRSum records / specHRCount records) := by
  refine ⟨?_, ?_, ?_, ?_, ?_⟩
  · simp [ParseToActivity, agg_totalDistance, initAgg]
  · simp [ParseToActivity, agg_totalCalories, initAgg]
  · simp [ParseToActivity, agg_duration, initAgg]
  · simp [ParseToActivity, agg_maxHR, initAgg]
  · rcases Nat.eq_zero_or_pos (specHRCount records) with h | h
    · simp [ParseToActivity, agg_avgHR, agg_hrCount, initAgg, h]
    · simp [ParseToActivity, agg_avgHR, agg_hrCount, initAgg, h, Nat.pos_iff_ne_zero.mp h]

/-- Claim C2 counterexample: on the single-byte data section `0x80` the
decoder stops at the `offset+1 >= len` guard before building any record, so
it yields zero records, not the one empty-mapped record the claim
describes. -/
theorem parseRecordsLoop_single_0x80_counterexample :
    parseRecordsLoop [128] = [] ∧ (parseRecordsLoop [128]).length ≠ 1 := by decide

/-- Claim C2 (amended): when the entire data section is a single byte with
bit 7 set, `ParseRecords`'s loop stops immediately (fewer than 2 bytes are
in the section) and yields no record at all; the cursor never advances. -/
theorem parseRecordsLoop_single_high_bit (b : Nat) (_hb : b &&& 128 ≠ 0) :
    parseRecordsLoop [b] = [] := by
  rw [parseRecordsLoop, parseFrom_eq]
  simp

/-- Witness for the amended claim C2 at the byte `0x80`. -/
theorem parseRecordsLoop_single_high_bit_witness :
    (128 &&& 128 ≠ 0) ∧ parseRecordsLoop [128] = [] :=
  ⟨by decide, parseRecordsLoop_single_high_bit 128 (by decide)⟩

/-- Claim C4 counterexample: the all-zero data section of length 10 yields
two records, not exactly one — after the first record the new offset is 5
and `5 + 4 >= 10` fails, so decoding continues. -/
theorem parseRecordsLoop_allZero_counterexample :
    5 ≤ 10 ∧ (parseRecordsLoop (List.replicate 10 0)).length = 2 ∧
      (parseRecordsLoop (List.replicate 10 0)).length ≠ 1 := by decide

/-- Claim C4 (amended): for an all-zero data section of length between 5
and 9, the decoder yields exactly one record, carrying tag 0 with value 0,
and then stops (for length 10 and beyond a second record is decoded). -/
theorem parseRecordsLoop_allZero_short (n : Nat) (h5 : 5 ≤ n) (h9 : n ≤ 9) :
    parseRecordsLoop (List.replicate n 0) = [⟨0, some 0⟩] := by
  interval_cases n <;> decide

/-- Witness for the amended claim C4 at length 5. -/
theorem parseRecordsLoop_allZero_short_witness :
    parseRecordsLoop (List.replicate 5 0) = [⟨0, some 0⟩] :=
  parseRecordsLoop_allZero_short 5 (by decide) (by decide)

/-- Claim C5 evaluated at a failing input: the 5-byte file "ABCDE" is
shorter than 12 bytes, yet `parseHeader` rejects it with the invalid-magic
error computed from the zero-padded buffer — not with the read error (the
only truncation-style failure the code can produce, raised solely for
empty files) — because the byte count returned by `file.Read` is ignored. -/
theorem parseHeader_short_input_invalid_magic :
    [65, 66, 67, 68, 69].length < 12 ∧
    parseHeader [65, 66, 67, 68, 69] = HeaderResult.invalidMagic [0, 0, 0, 0] ∧
    parseHeader [65, 66, 67, 68, 69] ≠ HeaderResult.readErr := by decide

/-- Claim C6 evaluated at a failing input: a valid 12-byte header declares
`dataSize = 20` but only 5 data bytes follow; `ParseRecords` does not fail,
it zero-pads the buffer (the byte count of `file.Read` is ignored) and
decodes four records from the partially read buffer. -/
theorem parseRecords_zero_pads_short_data :
    parseHeader ([12, 16, 0, 0, 20, 0, 0, 0, 46, 70, 73, 84] ++ [0, 0, 0, 0, 0]) =
      HeaderResult.ok ⟨12, 16, 0, 20, [46, 70, 73, 84]⟩ ∧
    (([12, 16, 0, 0, 20, 0, 0, 0, 46, 70, 73, 84] ++ [0, 0, 0, 0, 0]).drop 12).length < 20 ∧
    ParseRecords ([12, 16, 0, 0, 20, 0, 0, 0, 46, 70, 73, 84] ++ [0, 0, 0, 0, 0])
      ⟨12, 16, 0, 20, [46, 70, 73, 84]⟩ =
      RecordsResult.ok [⟨0, some 0⟩, ⟨0, some 0⟩, ⟨0, some 0⟩, ⟨0, some 0⟩] := by decide

/-- Claim C7: on every 12-byte header buffer, `parseHeader` succeeds
exactly when bytes 8..11 are the ASCII literal ".FIT" = [46, 70, 73, 84]
(case-sensitive, untrimmed), and otherwise fails with the invalid-magic
error carrying those four bytes. -/
theorem parseHeader_magic_iff (b0 b1 b2 b3 b4 b5 b6 b7 b8 b9 b10 b11 : Nat) :
    ((∃ hdr, parseHeader [b0, b1, b2, b3, b4, b5, b6, b7, b8, b9, b10, b11] =
        HeaderResult.ok hdr) ↔ [b8, b9, b10, b11] = [46, 70, 73, 84]) ∧
    ([b8, b9, b10, b11] ≠ [46, 70, 73, 84] →
      parseHeader [b0, b1, b2, b3, b4, b5, b6, b7, b8, b9, b10, b11] =
        HeaderResult.invalidMagic [b8, b9, b10, b11]) := by
  rw [parseHeader_12]
  by_cases hm : [b8, b9, b10, b11] = ([46, 70, 73, 84] : List Nat)
  · simp [hm]
  · simp [hm]

/-- Witness for claim C7: a well-formed header is accepted. -/
theorem parseHeader_magic_iff_witness :
    ∃ hdr, parseHeader [12, 16, 0, 0, 20, 0, 0, 0, 46, 70, 73, 84] = HeaderResult.ok hdr :=
  (parseHeader_magic_iff 12 16 0 0 20 0 0 0 46 70 73 84).1.mpr rfl

/-- Claim C9: the record loop terminates and produces at most one record
per byte of the data section — every iteration that does not break
advances the cursor by 5 or by 1, so the record count is bounded by the
buffer length. -/
theorem parseRecordsLoop_length_le (data : List Nat) :
    (parseRecordsLoop data).length ≤ data.length := by
  have h := parseLoopF_length (data.length + 1) data 0
  simpa [parseRecordsLoop, parseFrom] using h

/-- Claim C10: for every record list, the activity built by
`ParseToActivity` has `ElevationGain = 0` and `ID = 0`; the aggregation
writes only the name, type, start-time, distance, calories, duration and
heart-rate fields (the first three to fixed values / the wall-clock
string). -/
theorem parseToActivity_frame (records : List FitRecord) (now : String) :
    (ParseToActivity records now).ElevationGain = 0 ∧
    (ParseToActivity records now).ID = 0 ∧
    (ParseToActivity records now).Name = "FIT Activity" ∧
    (ParseToActivity records now).Type' = "unknown" ∧
    (ParseToActivity records now).StartTime = now :=
  ⟨rfl, rfl, rfl, rfl, rfl⟩

/-- Claim C3: whenever the loop emits a record — the guard `off + 1 < len`
holds, and for a normal header also `off + 4 < len` — and `off2` is the new
cursor (`off + 5` for a normal header, `off + 1` for a compressed one), the
sequence stops right after that record if and only if fewer than 4 bytes
remain strictly beyond position `off2`, i.e. `len <= off2 + 4` (the
source's `offset+4 >= len(dataBytes)`); and when at least 4 bytes remain
beyond `off2`, the rest of the output is exactly the decoding continued at
`off2`, which emits at least one further record. -/
theorem parseFrom_record_stop_iff (data : List Nat) (off off2 : Nat)
    (hin : off + 1 < data.length)
    (hnorm : data.getD off 0 &&& 128 = 0 → off + 4 < data.length)
    (hoff2 : off2 = if data.getD off 0 &&& 128 = 0 then off + 5 else off + 1) :
    ((parseFrom data off).tail = [] ↔ data.length ≤ off2 + 4) ∧
    (off2 + 4 < data.length →
      (parseFrom data off).tail = parseFrom data off2 ∧ parseFrom data off2 ≠ []) := by
  subst hoff2
  rw [parseFrom_eq data off]
  by_cases hb : data.getD off 0 &&& 128 = 0
  · have h4 : off + 4 < data.length := hnorm hb
    simp only [if_pos hin, if_pos hb, if_pos h4]
    by_cases hstop : data.length ≤ off + 9
    · simp only [if_pos hstop, List.tail_cons]
      refine ⟨⟨fun _ => by omega, fun _ => trivial⟩, fun hc => absurd hc (by omega)⟩
    · simp only [if_neg hstop, List.tail_cons]
      refine ⟨⟨fun h => absurd h (parseFrom_ne_nil data (off + 5) (by omega)),
               fun h => absurd h (by omega)⟩,
              fun _ => ⟨trivial, parseFrom_ne_nil data (off + 5) (by omega)⟩⟩
  · simp only [if_pos hin, if_neg hb]
    by_cases hstop : data.length ≤ off + 5
    · simp only [if_pos hstop, List.tail_cons]
      refine ⟨⟨fun _ => by omega, fun _ => trivial⟩, fun hc => absurd hc (by omega)⟩
    · simp only [if_neg hstop, List.tail_cons]
      refine ⟨⟨fun h => absurd h (parseFrom_ne_nil data (off + 1) (by omega)),
               fun h => absurd h (by omega)⟩,
              fun _ => ⟨trivial, parseFrom_ne_nil data (off + 1) (by omega)⟩⟩

/-- Witness for claim C3: on the all-zero 10-byte section, the first record
moves the cursor to 5, four bytes remain beyond it, and decoding continues
with one further record. -/
theorem parseFrom_record_stop_iff_witness :
    (((parseFrom (List.replicate 10 0) 0).tail = [] ↔
        (List.replicate 10 (0 : Nat)).length ≤ 5 + 4) ∧
     (5 + 4 < (List.replicate 10 (0 : Nat)).length →
       (parseFrom (List.replicate 10 0) 0).tail = parseFrom (List.replicate 10 0) 5 ∧
       parseFrom (List.replicate 10 0) 5 ≠ [])) :=
  parseFrom_record_stop_iff (List.replicate 10 0) 0 5 (by decide) (by decide) (by decide)

/-- Claim C8 counterexample: the walk visits a perfectly enumerable root
directory first, then a descendant whose stat fails; the callback returns
that error and the whole walk aborts, although the root path itself could
be enumerated. -/
theorem processFitFiles_root_only_counterexample :
    ProcessFitFiles [WalkEvent.dir, WalkEvent.enumError] = WalkResult.aborted ∧
    [WalkEvent.dir, WalkEvent.enumError].head? = some WalkEvent.dir := by decide

/-- Claim C8 (amended): a failure while processing a selected file never
aborts the walk — when the walk reports no enumeration error, the run
completes and merely counts/reports each failing `.fit` file — but the walk
as a whole aborts exactly when the walk reports an enumeration error for
some visited path (the root or any descendant), since the callback returns
every such error. -/
theorem processFitFiles_walk_failure_iff (evs : List WalkEvent) :
    (ProcessFitFiles evs = WalkResult.aborted ↔ WalkEvent.enumError ∈ evs) ∧
    (WalkEvent.enumError ∉ evs →
      ProcessFitFiles evs = WalkResult.ok (evs.countP failingFit)) := by
  induction evs with
  | nil =>
    refine ⟨by simp [ProcessFitFiles], fun _ => by simp [ProcessFitFiles]⟩
  | cons e rest ih =>
    cases e with
    | enumError =>
      refine ⟨by simp [ProcessFitFiles], fun h => absurd (List.mem_cons_self _ _) h⟩
    | dir =>
      have hstep : ProcessFitFiles (WalkEvent.dir :: rest) = ProcessFitFiles rest := rfl
      constructor
      · rw [hstep, ih.1]
        simp
      · intro h
        have h' : WalkEvent.enumError ∉ rest := fun hm => h (List.mem_cons_of_mem _ hm)
        rw [hstep, ih.2 h']
        simp [List.countP_cons, failingFit]
    | file ext pf =>
      by_cases hfit : lowerExt ext = fitExt
      · cases hrest : ProcessFitFiles rest with
        | ok n =>
          have hstep : ProcessFitFiles (WalkEvent.file ext pf :: rest) =
              WalkResult.ok (if pf then n + 1 else n) := by
            simp [ProcessFitFiles, hfit, hrest]
          have hmem : WalkEvent.enumError ∉ rest := fun hm => by
            have := ih.1.mpr hm
            rw [hrest] at this
            exact absurd this (by simp)
          constructor
          · rw [hstep]
            constructor
            · intro habs
              exact absurd habs (by simp)
            · intro hm
              rcases List.mem_cons.mp hm with h | h
              · exact absurd h (by simp)
              · exact absurd h hmem
          · intro h
            have hn : n = rest.countP failingFit := by
              have := ih.2 hmem
              rw [hrest] at this
              exact (WalkResult.ok.injEq _ _).mp this
            rw [hstep]
            simp only [List.countP_cons, failingFit, hfit]
            cases pf <;> simp [hn]
        | aborted =>
          have hmem : WalkEvent.enumError ∈ rest := ih.1.mp hrest
          have hstep : ProcessFitFiles (WalkEvent.file ext pf :: rest) =
              WalkResult.aborted := by
            simp [ProcessFitFiles, hfit, hrest]
          constructor
          · rw [hstep]
            exact ⟨fun _ => List.mem_cons_of_mem _ hmem, fun _ => rfl⟩
          · intro h
            exact absurd (List.mem_cons_of_mem _ hmem) h
      · have hstep : ProcessFitFiles (WalkEvent.file ext pf :: rest) =
            ProcessFitFiles rest := by
          simp [ProcessFitFiles, hfit]
        constructor
        · rw [hstep, ih.1]
          simp
        · intro h
          have h' : WalkEvent.enumError ∉ rest := fun hm => h (List.mem_cons_of_mem _ hm)
          rw [hstep, ih.2 h']
          simp [List.countP_cons, failingFit, hfit]

/-- Witness for the amended claim C8: a walk with no enumeration error and
one failing selected file (upper-case extension ".FIT") completes with one
reported failure. -/
theorem processFitFiles_walk_failure_iff_witness :
    ProcessFitFiles [WalkEvent.dir, WalkEvent.file [46, 70, 73, 84] true,
      WalkEvent.file [46, 116, 120, 116] true] = WalkResult.ok 1 :=
  (processFitFiles_walk_failure_iff
    [WalkEvent.dir, WalkEvent.file [46, 70, 73, 84] true,
      WalkEvent.file [46, 116, 120, 116] true]).2 (by decide)

